import Mathlib

/-!
Verification development for the email provisioning API
(`src/email_api/api/`): a shallow embedding of the data model
(`models.py`), the role/domain access-control logic (`permissions.py`),
the JWT session layer (`auth.py`), the DirectAdmin HTTP client
(`client.py`) and the FastAPI endpoint bodies (`main.py`), together with
theorems about them.

Conventions used throughout the embedding:
* timestamps (`datetime.utcnow()`) are natural numbers;
* a FastAPI `HTTPException` is an explicit `HTTPError` value returned in
  `Except`;
* the remote DirectAdmin server is a parameter: mutating endpoints take
  the outcome of the remote call (`Except DirectAdminError Unit`), the
  listing endpoint takes the remote username list, and the low-level
  client loop takes a function from attempt index to HTTP outcome;
* each endpoint model also returns the final database state and the list
  of remote control-panel calls it issued, so that ordering properties
  ("fails before any remote call") are statable.
-/

namespace EmailApi

/-- `models.py` line 10, `class UserRole(str, Enum)`. -/
inductive UserRole where
  | admin
  | domain_admin
  | user
deriving DecidableEq

/-- `models.py` line 18, `class User` (table `users`): id, email,
hashed_password, role, domain, is_active, created_at, updated_at.
`main.py` additionally sets a runtime attribute `must_change_password`
on user instances (lines 192/261/363), which we carry as a field.
The primary key is modelled as a plain `Nat` (persisted rows always
have one). -/
structure User where
  id : Nat
  email : String
  hashed_password : String
  role : UserRole
  domain : Option String
  is_active : Bool
  must_change_password : Bool
  created_at : Nat
  updated_at : Nat
deriving DecidableEq

/-- `models.py` line 44, `class EmailAccount` (table `email_accounts`),
with the table-level `UniqueConstraint("username", "domain")` of line 48
enforced in the endpoint models at commit time. -/
structure EmailAccount where
  id : Nat
  username : String
  domain : String
  quota_mb : Nat
  created_by_user_id : Option Nat
  created_at : Nat
  updated_at : Nat
  deleted_at : Option Nat
deriving DecidableEq

/-- Modelled from the spec: `PasswordResetToken` is imported from
`.models` by `main.py` and `email_service.py` but its declaration is
missing from `src/email_api/api/models.py`; spec §3 ("Password Reset
Token — single-use credential: opaque token string, owning identity
reference, expiry instant, used flag") and the constructor call in
`email_service.py` lines 141-146 fix its fields. -/
structure PasswordResetToken where
  token : String
  user_id : Nat
  expires_at : Nat
  used : Bool
deriving DecidableEq

/-- A `fastapi.HTTPException`: status code plus detail string. -/
structure HTTPError where
  status_code : Nat
  detail : String
deriving DecidableEq

/-- Python `str()` of an `Optional[str]` as used in f-strings:
`None` prints as `"None"`. -/
def pyStr : Option String → String
  | some s => s
  | none => "None"

/-- Python truthiness of an `Optional[str]`: `None` and `""` are falsy. -/
def pyTruthy : Option String → Bool
  | some s => !(s == "")
  | none => false

/-! ## permissions.py -/

/-- `permissions.py` line 42, `can_access_domain`: admins may access any
domain; domain admins only their assigned domain; the `user` role none. -/
def can_access_domain (user : User) (domain : String) : Bool :=
  if user.role = UserRole.admin then true
  else if user.role = UserRole.domain_admin then user.domain == some domain
  else false

/-- `permissions.py` line 70, `check_domain_access`: raise 403 when
`can_access_domain` is false. -/
def check_domain_access (user : User) (domain : String) : Except HTTPError Unit :=
  if can_access_domain user domain then .ok ()
  else .error ⟨403, "Access denied to domain: " ++ domain⟩

/-- `permissions.py` line 128, `check_domain_param_tampering`: a
domain_admin supplying a (truthy) domain parameter different from their
assigned domain gets 403. -/
def check_domain_param_tampering (user : User) (requested_domain : Option String) :
    Except HTTPError Unit :=
  if user.role = UserRole.domain_admin ∧ pyTruthy requested_domain then
    if requested_domain ≠ user.domain then
      .error ⟨403, "Access denied: domain_admin can only access " ++ pyStr user.domain⟩
    else .ok ()
  else .ok ()

/-- `permissions.py` line 150, `get_effective_domain`: a domain_admin
always resolves to their assigned domain (`user.domain or default`), an
admin to the requested domain (`requested or default`), anyone else to
the default. -/
def get_effective_domain (user : User) (requested_domain : Option String)
    (default_domain : String) : String :=
  if user.role = UserRole.domain_admin then
    match user.domain with
    | some s => if s = "" then default_domain else s
    | none => default_domain
  else if user.role = UserRole.admin then
    match requested_domain with
    | some s => if s = "" then default_domain else s
    | none => default_domain
  else default_domain

/-! ## main.py: password validation -/

/-- `main.py` line 410, `validate_password`: length ≥ 8, then an
uppercase letter, then a lowercase letter, then a digit; the first
failing check raises 400 with its own message.  The regex classes
`[A-Z]`, `[a-z]`, `\d` are modelled on their ASCII ranges. -/
def validate_password (password : String) : Except HTTPError Unit :=
  if password.length < 8 then
    .error ⟨400, "Password must be at least 8 characters long"⟩
  else if !(password.data.any fun c => 'A' ≤ c && c ≤ 'Z') then
    .error ⟨400, "Password must contain at least one uppercase letter"⟩
  else if !(password.data.any fun c => 'a' ≤ c && c ≤ 'z') then
    .error ⟨400, "Password must contain at least one lowercase letter"⟩
  else if !(password.data.any fun c => c.isDigit) then
    .error ⟨400, "Password must contain at least one number"⟩
  else .ok ()

/-! ## auth.py: JWT session tokens

The repository signs tokens with `python-jose` (`jwt.encode` /
`jwt.decode`, HS256).  The cryptographic layer is an external library,
modelled here symbolically: a token is either a payload-and-expiry
structure tagged with the secret that signed it, or malformed;
`jwt_decode` succeeds exactly when the signing secret matches and the
expiry is still in the future (spec §4.2: "verifies signature and that
now < expiry"), and collapses every failure to one `JWTError`. -/

/-- The claim payload this application puts in tokens
(`main.py` lines 145-149: `user_id`, `email`, `role`). -/
structure TokenPayload where
  user_id : Nat
  email : String
  role : String
deriving DecidableEq

/-- Symbolic JWT: a signed token remembers the payload, the `exp` claim
and the secret used to sign it; anything else is malformed. -/
inductive Jwt where
  | signed (payload : TokenPayload) (exp : Nat) (secret : String)
  | malformed (raw : String)
deriving DecidableEq

/-- Model of `jose.jwt.encode(to_encode, secret, HS256)`. -/
def jwt_encode (payload : TokenPayload) (exp : Nat) (secret : String) : Jwt :=
  .signed payload exp secret

/-- Model of `jose.jwt.decode(token, secret, [HS256])`: signature and
expiry are checked, any failure is the single `JWTError` (here `.error ()`). -/
def jwt_decode (token : Jwt) (secret : String) (now : Nat) :
    Except Unit (TokenPayload × Nat) :=
  match token with
  | .signed p e s => if s = secret ∧ now < e then .ok (p, e) else .error ()
  | .malformed _ => .error ()

/-- `auth.py` line 66, `create_access_token`: expiry is now plus the
supplied delta, or now plus the configured `JWT_EXPIRE_MINUTES` default
(both in seconds here); the payload is signed with the process secret. -/
def create_access_token (data : TokenPayload) (expires_delta : Option Nat)
    (jwt_expire_default : Nat) (secret : String) (now : Nat) : Jwt :=
  jwt_encode data (now + expires_delta.getD jwt_expire_default) secret

/-- `auth.py` lines 103-107: the single 401 raised for every invalid token. -/
def credentials_exception : HTTPError :=
  ⟨401, "Could not validate credentials"⟩

/-- `auth.py` line 90, `decode_access_token`: decode, mapping any
`JWTError` to the one `credentials_exception`. -/
def decode_access_token (token : Jwt) (secret : String) (now : Nat) :
    Except HTTPError (TokenPayload × Nat) :=
  match jwt_decode token secret now with
  | .ok payload => .ok payload
  | .error _ => .error credentials_exception

/-! ## client.py: DirectAdmin client -/

/-- A value in a parsed DirectAdmin response: `urllib.parse.parse_qs`
returns lists, which `_parse_response` collapses to scalars when they
have exactly one element (`client.py` lines 53-55). -/
inductive QSValue where
  | scalar (s : String)
  | values (ss : List String)
deriving DecidableEq

/-- Python `str()` of a parsed value, for f-string interpolation of
`DirectAdminError.message` in `main.py` error details. -/
def pyQSStr : QSValue → String
  | .scalar s => s
  | .values ss => "[" ++ String.intercalate ", " (ss.map fun s => "'" ++ s ++ "'") ++ "]"

/-- `client.py` line 9, `DirectAdminError`: message and optional details,
taken verbatim from the decoded response map (so either may be a
collapsed scalar or a list). -/
structure DirectAdminError where
  message : QSValue
  details : Option QSValue
deriving DecidableEq

/-- Whether a character is an ASCII hexadecimal digit. -/
def isHexDigit (c : Char) : Bool :=
  c.isDigit || ('a' ≤ c && c ≤ 'f') || ('A' ≤ c && c ≤ 'F')

/-- Numeric value of a hex digit character. -/
def hexVal (c : Char) : Nat :=
  if c.isDigit then c.toNat - 48
  else if 'a' ≤ c ∧ c ≤ 'f' then c.toNat - 87
  else c.toNat - 55

/-- URL unquoting with plus-to-space, as `parse_qs` applies to names and
values: `+` becomes a space, `%XY` with two hex digits becomes the coded
character, anything else passes through. -/
def unquoteChars : List Char → List Char
  | [] => []
  | '+' :: rest => ' ' :: unquoteChars rest
  | '%' :: a :: b :: rest =>
    if isHexDigit a && isHexDigit b then
      Char.ofNat (16 * hexVal a + hexVal b) :: unquoteChars rest
    else '%' :: unquoteChars (a :: b :: rest)
  | c :: rest => c :: unquoteChars rest

/-- String form of `unquoteChars` (Python `urllib.parse.unquote_plus`). -/
def unquotePlus (s : String) : String :=
  ⟨unquoteChars s.data⟩

/-- Split a character list on every occurrence of a separator
(Python `str.split(sep)` for a one-character separator). -/
def splitOnChar (sep : Char) : List Char → List (List Char)
  | [] => [[]]
  | c :: rest =>
    match splitOnChar sep rest with
    | [] => [[c]]
    | h :: t => if c = sep then [] :: h :: t else (c :: h) :: t

/-- Split a character list at the first occurrence of a separator, when
there is one (Python `str.split(sep, 1)`). -/
def splitFirst (sep : Char) : List Char → Option (List Char × List Char)
  | [] => none
  | c :: rest =>
    if c = sep then some ([], rest)
    else (splitFirst sep rest).map fun p => (c :: p.1, p.2)

/-- `urllib.parse.parse_qsl` with default arguments: split the query
string on `&`; drop empty fields, fields without `=`, and fields with an
empty value (`keep_blank_values=False`); split each remaining field at
the first `=` and unquote name and value. -/
def parse_qsl (s : String) : List (String × String) :=
  (splitOnChar '&' s.data).filterMap fun field =>
    match splitFirst '=' field with
    | none => none
    | some (name, value) =>
      if value = [] then none
      else some (⟨unquoteChars name⟩, ⟨unquoteChars value⟩)

/-- Append a value under a key in an insertion-ordered multimap, as the
dict building inside `parse_qs` does. -/
def assocAppend : List (String × List String) → String → String → List (String × List String)
  | [], k, v => [(k, [v])]
  | (k', vs) :: rest, k, v =>
    if k' = k then (k', vs ++ [v]) :: rest
    else (k', vs) :: assocAppend rest k v

/-- `urllib.parse.parse_qs`: group the `parse_qsl` pairs by key,
preserving insertion order. -/
def parse_qs (s : String) : List (String × List String) :=
  (parse_qsl s).foldl (fun acc kv => assocAppend acc kv.1 kv.2) []

/-- `client.py` lines 53-55: collapse single-element lists to scalars. -/
def flattenQS (l : List (String × List String)) : List (String × QSValue) :=
  l.map fun kv =>
    match kv.2 with
    | [v] => (kv.1, QSValue.scalar v)
    | vs => (kv.1, QSValue.values vs)

/-- Lookup in the flattened response map (Python `dict.get`). -/
def qsGet (l : List (String × QSValue)) (k : String) : Option QSValue :=
  (l.find? fun kv => kv.1 == k).map fun kv => kv.2

/-- `client.py` line 37, `_parse_response`: parse the URL-encoded body,
flatten, and raise `DirectAdminError` with the body's `text` as message
(default `"Unknown error"`) and `details` as details when the decoded
map has `error = "1"`. -/
def _parse_response (response_text : String) :
    Except DirectAdminError (List (String × QSValue)) :=
  let result := flattenQS (parse_qs response_text)
  if qsGet result "error" = some (QSValue.scalar "1") then
    .error ⟨(qsGet result "text").getD (QSValue.scalar "Unknown error"), qsGet result "details"⟩
  else .ok result

/-- What the HTTP POST of one attempt produced: an `httpx.RequestError`
(transport failure), an `httpx.HTTPStatusError` (non-2xx status, raised
by `raise_for_status`), or a 2xx response with a body. -/
inductive HttpOutcome where
  | transportError (err : String)
  | statusError (code : Nat) (body : String)
  | success (body : String)
deriving DecidableEq

/-- Whether an attempt outcome is one of the two retried failures. -/
def httpFailure : HttpOutcome → Bool
  | .success _ => false
  | _ => true

/-- The `DirectAdminError` that `_make_request` raises on its final
attempt for a given failure outcome (`client.py` lines 101-115). -/
def failureError : HttpOutcome → DirectAdminError
  | .statusError code body => ⟨.scalar ("HTTP " ++ toString code), some (.scalar body)⟩
  | .transportError msg => ⟨.scalar "Network error", some (.scalar msg)⟩
  | .success _ => ⟨.scalar "Max retries exceeded", none⟩

/-- The `for attempt in range(max_retries)` loop of `client.py`
lines 89-117, from a given attempt index.  The remote server is the
function `outcomes` from attempt index to HTTP outcome.  Returns the
result together with the list of backoff sleeps performed
(`time.sleep(2**attempt)`): a 2xx response is parsed and returned (or
`_parse_response`'s error propagates, unretried); a failure on the last
attempt raises; any other failure sleeps `2^attempt` and retries. -/
def makeRequestLoop (outcomes : Nat → HttpOutcome) (max_retries attempt : Nat) :
    Except DirectAdminError (List (String × QSValue)) × List Nat :=
  if attempt < max_retries then
    match outcomes attempt with
    | .success body => (_parse_response body, [])
    | .statusError code body =>
      if attempt = max_retries - 1 then
        (.error ⟨.scalar ("HTTP " ++ toString code), some (.scalar body)⟩, [])
      else
        let r := makeRequestLoop outcomes max_retries (attempt + 1)
        (r.1, 2 ^ attempt :: r.2)
    | .transportError msg =>
      if attempt = max_retries - 1 then
        (.error ⟨.scalar "Network error", some (.scalar msg)⟩, [])
      else
        let r := makeRequestLoop outcomes max_retries (attempt + 1)
        (r.1, 2 ^ attempt :: r.2)
  else (.error ⟨.scalar "Max retries exceeded", none⟩, [])
termination_by max_retries - attempt

/-- `client.py` line 66, `_make_request` with its default
`max_retries = 3`. -/
def _make_request (outcomes : Nat → HttpOutcome) (max_retries : Nat := 3) :
    Except DirectAdminError (List (String × QSValue)) × List Nat :=
  makeRequestLoop outcomes max_retries 0

/-! ## main.py: mailbox endpoints

The persistence layer is a list of `EmailAccount` rows plus a primary
key counter.  SQLModel `select(...).first()` becomes `List.find?`;
mutating a fetched ORM row in place becomes `updateFirst`; the
table-level unique constraint on (username, domain) (`models.py`
line 48) is checked where the Python `session.commit()` would raise
`IntegrityError`. -/

/-- The local `email_accounts` table plus the autoincrement counter. -/
structure Db where
  accounts : List EmailAccount
  nextId : Nat
deriving DecidableEq

/-- A control-panel request issued by an endpoint, for stating ordering
properties ("fails before any remote call"). -/
inductive RemoteCall where
  | list (domain : String)
  | create (domain username : String) (quota : Nat)
  | delete (domain username : String)
  | changePassword (domain username : String)
deriving DecidableEq

/-- Replace the first element satisfying `p` by its image under `f`
(mutating the row that `select(...).first()` returned). -/
def updateFirst {α : Type} (p : α → Bool) (f : α → α) : List α → List α
  | [] => []
  | a :: rest => if p a then f a :: rest else a :: updateFirst p f rest

/-- The `where` clause on username and domain only (`main.py`
lines 482-485: sync lookup, ignoring soft-delete state). -/
def pairMatch (u d : String) (a : EmailAccount) : Bool :=
  a.username == u && a.domain == d

/-- The `where` clause on username, domain and `deleted_at IS NULL`
(`main.py` lines 561-565, 652-656, 725-729). -/
def activeMatch (u d : String) (a : EmailAccount) : Bool :=
  a.username == u && a.domain == d && a.deleted_at == none

/-- The soft-delete write of `delete_email` (`main.py` lines 668-671):
set `deleted_at` and `updated_at` on the fetched row. -/
def softDeleteFirst (uname eff : String) (now : Nat) (l : List EmailAccount) :
    List EmailAccount :=
  updateFirst (activeMatch uname eff)
    (fun a => { a with deleted_at := some now, updated_at := now }) l

/-- The timestamp write of the email `change_password` endpoint
(`main.py` lines 741-744): bump `updated_at` on the fetched row. -/
def touchUpdatedFirst (uname eff : String) (now : Nat) (l : List EmailAccount) :
    List EmailAccount :=
  updateFirst (activeMatch uname eff) (fun a => { a with updated_at := now }) l

/-- `main.py` lines 497-500: clear a set soft-delete timestamp and bump
`updated_at`; an already-active row is untouched. -/
def resurrect (now : Nat) (a : EmailAccount) : EmailAccount :=
  if a.deleted_at ≠ none then { a with deleted_at := none, updated_at := now } else a

/-- A fresh row created by the sync pass (`main.py` lines 489-495):
default quota 1000, no creator, not deleted. -/
def newSyncAccount (id : Nat) (u d : String) (now : Nat) : EmailAccount :=
  ⟨id, u, d, 1000, none, now, now, none⟩

/-- The body of the sync loop for one remote username (`main.py`
lines 478-500): look up by (username, domain) ignoring soft-delete
state; insert a default row if absent, otherwise resurrect if
soft-deleted. -/
def syncOne (db : Db) (eff u : String) (now : Nat) : Db :=
  if (db.accounts.find? (pairMatch u eff)).isSome then
    { db with accounts := updateFirst (pairMatch u eff) (resurrect now) db.accounts }
  else
    { accounts := db.accounts ++ [newSyncAccount db.nextId u eff now],
      nextId := db.nextId + 1 }

/-- The whole sync loop over the remote username list. -/
def syncAll (db : Db) (eff : String) (usernames : List String) (now : Nat) : Db :=
  usernames.foldl (fun s u => syncOne s eff u now) db

/-- `main.py` lines 505-509: all non-soft-deleted rows of a domain. -/
def activeFor (eff : String) (l : List EmailAccount) : List EmailAccount :=
  l.filter fun a => a.domain == eff && a.deleted_at == none

/-- The 500 raised when a `DirectAdminError` reaches an endpoint handler
(`except DirectAdminError` branches of `main.py`). -/
def daHttpError (e : DirectAdminError) : HTTPError :=
  ⟨500, "DirectAdmin error: " ++ pyQSStr e.message⟩

/-- The detail text of the 500 produced when `session.commit()` hits the
(username, domain) unique constraint; the exact `str(IntegrityError)`
text is storage-specific and modelled by this fixed string. -/
def integrityErrorDetail : String :=
  "UNIQUE constraint failed: email_accounts.username, email_accounts.domain"

/-- `main.py` line 445, `GET /emails` (`list_emails`): tamper check,
effective domain, access check, remote list, sync loop, then return the
active rows of the effective domain.  `remote` is the outcome of
`client.list_emails()`. -/
def list_emails (db : Db) (current_user : User) (domain : Option String)
    (default_domain : String) (remote : Except DirectAdminError (List String))
    (now : Nat) :
    Except HTTPError (List EmailAccount) × Db × List RemoteCall :=
  match check_domain_param_tampering current_user domain with
  | .error e => (.error e, db, [])
  | .ok _ =>
    let eff := get_effective_domain current_user domain default_domain
    match check_domain_access current_user eff with
    | .error e => (.error e, db, [])
    | .ok _ =>
      match remote with
      | .error e => (.error (daHttpError e), db, [.list eff])
      | .ok usernames =>
        let db' := syncAll db eff usernames now
        (.ok (activeFor eff db'.accounts), db', [.list eff])

/-- `models.py` line 93, `CreateEmailRequest`. -/
structure CreateEmailRequest where
  username : String
  password : String
  quota_mb : Nat
  domain : Option String
deriving DecidableEq

/-- `main.py` line 527, `POST /emails` (`create_email`): password
validation, tamper check, effective domain, access check, 409 when an
active row exists, remote create, then insert the local row (the commit
failing with 500 if any row — active or soft-deleted — already holds
the (username, domain) pair, per the table's unique constraint). -/
def create_email (request : CreateEmailRequest) (db : Db) (current_user : User)
    (default_domain : String) (remote : Except DirectAdminError Unit) (now : Nat) :
    Except HTTPError EmailAccount × Db × List RemoteCall :=
  match validate_password request.password with
  | .error e => (.error e, db, [])
  | .ok _ =>
    match check_domain_param_tampering current_user request.domain with
    | .error e => (.error e, db, [])
    | .ok _ =>
      let eff := get_effective_domain current_user request.domain default_domain
      match check_domain_access current_user eff with
      | .error e => (.error e, db, [])
      | .ok _ =>
        match db.accounts.find? (activeMatch request.username eff) with
        | some _ =>
          (.error ⟨409, "Email " ++ request.username ++ "@" ++ eff ++ " already exists"⟩,
            db, [])
        | none =>
          match remote with
          | .error e =>
            (.error (daHttpError e), db, [.create eff request.username request.quota_mb])
          | .ok _ =>
            if (db.accounts.find? (pairMatch request.username eff)).isSome then
              (.error ⟨500, integrityErrorDetail⟩, db,
                [.create eff request.username request.quota_mb])
            else
              let acc : EmailAccount :=
                ⟨db.nextId, request.username, eff, request.quota_mb,
                  some current_user.id, now, now, none⟩
              (.ok acc, ⟨db.accounts ++ [acc], db.nextId + 1⟩,
                [.create eff request.username request.quota_mb])

/-- `main.py` line 621, `DELETE /emails/{username}` (`delete_email`):
tamper check, effective domain, access check, 404 when no active row,
remote delete, then soft delete the local row. -/
def delete_email (username : String) (db : Db) (current_user : User)
    (domain : Option String) (default_domain : String)
    (remote : Except DirectAdminError Unit) (now : Nat) :
    Except HTTPError String × Db × List RemoteCall :=
  match check_domain_param_tampering current_user domain with
  | .error e => (.error e, db, [])
  | .ok _ =>
    let eff := get_effective_domain current_user domain default_domain
    match check_domain_access current_user eff with
    | .error e => (.error e, db, [])
    | .ok _ =>
      match db.accounts.find? (activeMatch username eff) with
      | none =>
        (.error ⟨404, "Email " ++ username ++ "@" ++ eff ++ " not found"⟩, db, [])
      | some _ =>
        match remote with
        | .error e => (.error (daHttpError e), db, [.delete eff username])
        | .ok _ =>
          (.ok ("Email " ++ username ++ "@" ++ eff ++ " deleted successfully"),
            { db with accounts := softDeleteFirst username eff now db.accounts },
            [.delete eff username])

/-- `main.py` line 690, `PUT /emails/{username}/password`
(`change_password`): password validation, tamper check, effective
domain, access check, 404 when no active row, remote password change,
then bump the local row's `updated_at`. -/
def change_password (username new_password : String) (db : Db) (current_user : User)
    (domain : Option String) (default_domain : String)
    (remote : Except DirectAdminError Unit) (now : Nat) :
    Except HTTPError String × Db × List RemoteCall :=
  match validate_password new_password with
  | .error e => (.error e, db, [])
  | .ok _ =>
    match check_domain_param_tampering current_user domain with
    | .error e => (.error e, db, [])
    | .ok _ =>
      let eff := get_effective_domain current_user domain default_domain
      match check_domain_access current_user eff with
      | .error e => (.error e, db, [])
      | .ok _ =>
        match db.accounts.find? (activeMatch username eff) with
        | none =>
          (.error ⟨404, "Email " ++ username ++ "@" ++ eff ++ " not found"⟩, db, [])
        | some _ =>
          match remote with
          | .error e => (.error (daHttpError e), db, [.changePassword eff username])
          | .ok _ =>
            (.ok ("Password updated for " ++ username ++ "@" ++ eff),
              { db with accounts := touchUpdatedFirst username eff now db.accounts },
              [.changePassword eff username])

/-- A database state reachable from the empty table through the four
mailbox endpoints, with arbitrary callers, parameters, remote outcomes
and times. -/
inductive Reachable : Db → Prop
  | init : Reachable ⟨[], 1⟩
  | sync {db} (u : User) (dom : Option String) (dflt : String)
      (remote : Except DirectAdminError (List String)) (now : Nat) :
      Reachable db → Reachable (list_emails db u dom dflt remote now).2.1
  | create {db} (req : CreateEmailRequest) (u : User) (dflt : String)
      (remote : Except DirectAdminError Unit) (now : Nat) :
      Reachable db → Reachable (create_email req db u dflt remote now).2.1
  | del {db} (username : String) (u : User) (dom : Option String) (dflt : String)
      (remote : Except DirectAdminError Unit) (now : Nat) :
      Reachable db → Reachable (delete_email username db u dom dflt remote now).2.1
  | passwd {db} (username npw : String) (u : User) (dom : Option String) (dflt : String)
      (remote : Except DirectAdminError Unit) (now : Nat) :
      Reachable db → Reachable (change_password username npw db u dom dflt remote now).2.1

/-! ## main.py: password-reset submission (`POST /reset-password`) -/

/-- A Python value passed positionally in a method call. -/
inductive PyVal where
  | str (s : String)
  | int (n : Nat)
deriving DecidableEq

/-- A Python exception escaping the DirectAdmin update attempt inside
`process_reset_password`'s `try` block. -/
inductive PyExc where
  | typeError
  | directAdminFailure (e : DirectAdminError)
deriving DecidableEq

/-- A Python positional call to `DirectAdminClient.change_password`
(`client.py` line 200: `def change_password(self, username, new_password)`
— exactly two parameters after `self`).  A call whose argument list does
not have exactly two elements raises `TypeError` before any request is
made; otherwise the method issues the remote request.  The boolean
records whether a remote request was issued. -/
def call_change_password (args : List PyVal) (remote : Except DirectAdminError Unit) :
    Except PyExc Unit × Bool :=
  if args.length = 2 then
    match remote with
    | .ok _ => (.ok (), true)
    | .error e => (.error (.directAdminFailure e), true)
  else (.error .typeError, false)

/-- The whole application state touched by the password-reset flow. -/
structure AppState where
  users : List User
  accounts : List EmailAccount
  reset_tokens : List PasswordResetToken
deriving DecidableEq

/-- `auth.py` line 39: bcrypt hashing, modelled as an injective tagging
(the salt is irrelevant to the properties proved here). -/
def hash_password (password : String) : String :=
  "$2b$12$" ++ password

/-- What `POST /reset-password` renders. -/
inductive ResetPage where
  | errorPage (title : String)
  | formError (error : String)
  | redirect
deriving DecidableEq

/-- `main.py` line 311, `process_reset_password`: validate the token
(found, unused, unexpired), the password confirmation, and the password
strength; then update the user's hash, attempt the DirectAdmin-side
update inside a `try` whose exceptions are only logged — the call at
line 383 passes three positional arguments `(username, new_password,
quota_mb)` — mark the token used and redirect.  The boolean result
records whether a DirectAdmin request was issued. -/
def process_reset_password (token new_password confirm_password : String)
    (st : AppState) (remote : Except DirectAdminError Unit) (now : Nat) :
    ResetPage × AppState × Bool :=
  match st.reset_tokens.find? (fun t => t.token == token) with
  | none => (.errorPage "Invalid Request", st, false)
  | some reset_token =>
    if reset_token.used || decide (reset_token.expires_at < now) then
      (.errorPage "Invalid Request", st, false)
    else if new_password ≠ confirm_password then
      (.formError "Passwords do not match", st, false)
    else
      match validate_password new_password with
      | .error e => (.formError e.detail, st, false)
      | .ok _ =>
        match st.users.find? (fun u => u.id == reset_token.user_id) with
        | none => (.errorPage "User Not Found", st, false)
        | some user =>
          let parts := (splitOnChar '@' user.email.data).map fun l => (⟨l⟩ : String)
          let daIssued :=
            if pyTruthy user.domain then
              match parts.get? 1 with
              | none => false
              | some dom =>
                let uname := (parts.get? 0).getD ""
                match st.accounts.find? (activeMatch uname dom) with
                | none => false
                | some acc =>
                  (call_change_password
                    [PyVal.str uname, PyVal.str new_password, PyVal.int acc.quota_mb]
                    remote).2
            else false
          (.redirect,
            { st with
              users := updateFirst (fun u => u.id == reset_token.user_id)
                (fun u => { u with hashed_password := hash_password new_password,
                                   must_change_password := false,
                                   updated_at := now }) st.users,
              reset_tokens := updateFirst (fun t => t.token == token)
                (fun t => { t with used := true }) st.reset_tokens },
            daIssued)

/-! ## Verification predicates -/

/-- The first row matching (username, domain) — the row
`select(...).first()` returns in the sync loop — exists and is active.
This is the state the sync pass establishes for every remote username. -/
def firstActive (l : List EmailAccount) (u d : String) : Prop :=
  ∃ a, l.find? (pairMatch u d) = some a ∧ a.deleted_at = none

/-- The (username, domain) pairs of the rows are pairwise distinct —
the table-level unique constraint of `models.py` line 48. -/
def pairsDistinct (l : List EmailAccount) : Prop :=
  l.Pairwise fun a b => ¬(a.username = b.username ∧ a.domain = b.domain)

end EmailApi

namespace EmailApi

/-- C1: the access-control decision `can_access_domain`: admin → true,
domain_admin → true iff the requested domain equals the assigned domain,
user → false (`permissions.py` lines 42-67). -/
theorem C1_can_access_domain_claim (u : User) (d : String) :
    (u.role = UserRole.admin → can_access_domain u d = true) ∧
    (u.role = UserRole.domain_admin →
      (can_access_domain u d = true ↔ u.domain = some d)) ∧
    (u.role = UserRole.user → can_access_domain u d = false) := by
  refine ⟨fun h => by simp [can_access_domain, h], fun h => ?_, fun h => ?_⟩
  · simp [can_access_domain, h]
  · simp [can_access_domain, h]

/-- C1 witness: concrete evaluations through `C1_can_access_domain_claim`. -/
theorem C1_can_access_domain_claim_witness :
    can_access_domain ⟨1, "root@example.com", "h", UserRole.admin, none, true, false, 0, 0⟩
      "x.com" = true ∧
    can_access_domain ⟨2, "da@a.com", "h", UserRole.domain_admin, some "a.com", true, false, 0, 0⟩
      "a.com" = true := by
  constructor
  · exact (C1_can_access_domain_claim _ "x.com").1 rfl
  · exact ((C1_can_access_domain_claim
      ⟨2, "da@a.com", "h", UserRole.domain_admin, some "a.com", true, false, 0, 0⟩
      "a.com").2.1 rfl).2 rfl

/-- C9: `validate_password` applies its checks in the fixed order
length, uppercase, lowercase, digit, and the first failing check wins,
each with its own message (`main.py` lines 410-442). -/
theorem C9_validate_password_claim (p : String) :
    (p.length < 8 →
      validate_password p = .error ⟨400, "Password must be at least 8 characters long"⟩) ∧
    (¬ p.length < 8 → ¬ (p.data.any fun c => 'A' ≤ c && c ≤ 'Z') →
      validate_password p =
        .error ⟨400, "Password must contain at least one uppercase letter"⟩) ∧
    (¬ p.length < 8 → (p.data.any fun c => 'A' ≤ c && c ≤ 'Z') →
      ¬ (p.data.any fun c => 'a' ≤ c && c ≤ 'z') →
      validate_password p =
        .error ⟨400, "Password must contain at least one lowercase letter"⟩) ∧
    (¬ p.length < 8 → (p.data.any fun c => 'A' ≤ c && c ≤ 'Z') →
      (p.data.any fun c => 'a' ≤ c && c ≤ 'z') → ¬ (p.data.any fun c => c.isDigit) →
      validate_password p =
        .error ⟨400, "Password must contain at least one number"⟩) := by
  refine ⟨fun h1 => ?_, fun h1 h2 => ?_, fun h1 h2 h3 => ?_, fun h1 h2 h3 h4 => ?_⟩
  · simp [validate_password, h1]
  · have h2' : (p.data.any fun c => 'A' ≤ c && c ≤ 'Z') = false := by simpa using h2
    simp [validate_password, h1, h2']
  · have h3' : (p.data.any fun c => 'a' ≤ c && c ≤ 'z') = false := by simpa using h3
    simp [validate_password, h1, h2, h3']
  · have h4' : (p.data.any fun c => c.isDigit) = false := by simpa using h4
    simp [validate_password, h1, h2, h3, h4']

/-- C9 witness: `"testpass123!"` has length ≥ 8 but no uppercase letter,
so validation fails with the uppercase message specifically. -/
theorem C9_validate_password_claim_witness :
    validate_password "testpass123!" =
      .error ⟨400, "Password must contain at least one uppercase letter"⟩ :=
  (C9_validate_password_claim "testpass123!").2.1 (by decide) (by decide)

/-- C3: token round-trip — decoding a token issued for (user_id, email,
role) before its expiry returns exactly those claims; at or after expiry,
under a different secret, or for a malformed token, decoding fails with
the single `credentials_exception` (HTTP 401), the same value in all
three failure modes (`auth.py` lines 66-113). -/
theorem C3_token_round_trip_claim (uid : Nat) (em rl secret : String)
    (delta : Option Nat) (ttl issueAt checkAt : Nat) :
    (checkAt < issueAt + delta.getD ttl →
      decode_access_token (create_access_token ⟨uid, em, rl⟩ delta ttl secret issueAt)
        secret checkAt = .ok (⟨uid, em, rl⟩, issueAt + delta.getD ttl)) ∧
    (issueAt + delta.getD ttl ≤ checkAt →
      decode_access_token (create_access_token ⟨uid, em, rl⟩ delta ttl secret issueAt)
        secret checkAt = .error credentials_exception) ∧
    (∀ s', s' ≠ secret →
      decode_access_token (create_access_token ⟨uid, em, rl⟩ delta ttl secret issueAt)
        s' checkAt = .error credentials_exception) ∧
    (∀ raw, decode_access_token (.malformed raw) secret checkAt =
      .error credentials_exception) := by
  refine ⟨fun h => ?_, fun h => ?_, fun s' hs => ?_, fun raw => ?_⟩
  · simp [decode_access_token, create_access_token, jwt_encode, jwt_decode, h]
  · simp [decode_access_token, create_access_token, jwt_encode, jwt_decode, Nat.not_lt.mpr h]
  · have hne : ¬ secret = s' := fun hx => hs hx.symm
    simp [decode_access_token, create_access_token, jwt_encode, jwt_decode, hne]
  · simp [decode_access_token, jwt_decode]

/-- C3 witness: a concrete token decodes to its claims before expiry and
fails with the single 401 afterwards. -/
theorem C3_token_round_trip_claim_witness :
    decode_access_token (create_access_token ⟨7, "a@b.c", "admin"⟩ none 86400 "s3cret" 100)
      "s3cret" 200 = .ok (⟨7, "a@b.c", "admin"⟩, 86500) ∧
    decode_access_token (create_access_token ⟨7, "a@b.c", "admin"⟩ none 86400 "s3cret" 100)
      "s3cret" 90000 = .error credentials_exception := by
  constructor
  · exact (C3_token_round_trip_claim 7 "a@b.c" "admin" "s3cret" none 86400 100 200).1
      (by norm_num)
  · exact (C3_token_round_trip_claim 7 "a@b.c" "admin" "s3cret" none 86400 100 90000).2.1
      (by norm_num)

/-- One successful attempt: a 2xx response on attempt `a` ends the loop
with the parsed body (whether that parse succeeds or raises) and no
further sleeps. -/
theorem makeRequestLoop_success (outcomes : Nat → HttpOutcome) (m a : Nat) (body : String)
    (h : a < m) (ho : outcomes a = .success body) :
    makeRequestLoop outcomes m a = (_parse_response body, []) := by
  rw [makeRequestLoop]
  simp [h, ho]

/-- A failure on the final attempt raises the failure's error. -/
theorem makeRequestLoop_last_fail (outcomes : Nat → HttpOutcome) (m a : Nat)
    (h : a < m) (hl : a = m - 1) (hf : httpFailure (outcomes a) = true) :
    makeRequestLoop outcomes m a = (.error (failureError (outcomes a)), []) := by
  rw [makeRequestLoop]
  cases ho : outcomes a with
  | success body => rw [ho] at hf; simp [httpFailure] at hf
  | statusError code body =>
    simp only [ho, failureError]
    simp [h, hl]
    omega
  | transportError msg =>
    simp only [ho, failureError]
    simp [h, hl]
    omega

/-- A failure on a non-final attempt sleeps `2 ^ attempt` and retries. -/
theorem makeRequestLoop_retry (outcomes : Nat → HttpOutcome) (m a : Nat)
    (h : a < m) (hl : a ≠ m - 1) (hf : httpFailure (outcomes a) = true) :
    makeRequestLoop outcomes m a =
      ((makeRequestLoop outcomes m (a + 1)).1,
        2 ^ a :: (makeRequestLoop outcomes m (a + 1)).2) := by
  rw [makeRequestLoop]
  cases ho : outcomes a with
  | success body => rw [ho] at hf; simp [httpFailure] at hf
  | statusError code body => simp [h, hl, ho]
  | transportError msg => simp [h, hl, ho]

/-- C4: the client's retry policy (`client.py` lines 37-117). With the
default `max_retries = 3`: (1) three consecutive failed attempts
(transport error or non-2xx status) perform backoff sleeps of 2^0 and
2^1 seconds and raise the last failure's `DirectAdminError`
(status/detail); (2) the first 2xx response is parsed and its outcome is
final — in particular a decoded `error=1` body raises immediately, with
no further attempt and no further sleep, never returning a partial
success; (3) an `error=1` body's error carries the body's `text` as
message and `details` as diagnostic. -/
theorem C4_client_retry_claim (outcomes : Nat → HttpOutcome) :
    (httpFailure (outcomes 0) = true → httpFailure (outcomes 1) = true →
      httpFailure (outcomes 2) = true →
      _make_request outcomes = (.error (failureError (outcomes 2)), [1, 2])) ∧
    (∀ i body, i < 3 → (∀ j, j < i → httpFailure (outcomes j) = true) →
      outcomes i = .success body →
      _make_request outcomes = (_parse_response body, (List.range i).map (2 ^ ·))) ∧
    (∀ body, qsGet (flattenQS (parse_qs body)) "error" = some (.scalar "1") →
      _parse_response body =
        .error ⟨(qsGet (flattenQS (parse_qs body)) "text").getD (.scalar "Unknown error"),
          qsGet (flattenQS (parse_qs body)) "details"⟩) := by
  refine ⟨fun h0 h1 h2 => ?_, fun i body hi hj ho => ?_, fun body herr => ?_⟩
  · have e2 := makeRequestLoop_last_fail outcomes 3 2 (by omega) (by omega) h2
    have e1 := makeRequestLoop_retry outcomes 3 1 (by omega) (by omega) h1
    have e0 := makeRequestLoop_retry outcomes 3 0 (by omega) (by omega) h0
    rw [_make_request, e0, e1, e2]
    rfl
  · interval_cases i
    · rw [_make_request, makeRequestLoop_success outcomes 3 0 body (by omega) ho]
      rfl
    · rw [_make_request, makeRequestLoop_retry outcomes 3 0 (by omega) (by omega) (hj 0 (by omega)),
        makeRequestLoop_success outcomes 3 1 body (by omega) ho]
      rfl
    · rw [_make_request, makeRequestLoop_retry outcomes 3 0 (by omega) (by omega) (hj 0 (by omega)),
        makeRequestLoop_retry outcomes 3 1 (by omega) (by omega) (hj 1 (by omega)),
        makeRequestLoop_success outcomes 3 2 body (by omega) ho]
      rfl
  · rw [_parse_response]
    simp [herr]

/-- C4 witness: HTTP 500 twice, then a 2xx `error=1&text=quota+exceeded`
body — the two failures are retried with backoff sleeps [1, 2], the
third response raises `DirectAdminError` with message "quota exceeded"
and is not retried. -/
theorem C4_client_retry_claim_witness :
    _make_request (fun n => if n < 2 then HttpOutcome.statusError 500 "Internal Server Error"
      else HttpOutcome.success "error=1&text=quota+exceeded") =
      (.error ⟨.scalar "quota exceeded", none⟩, [1, 2]) := by
  have h := (C4_client_retry_claim (fun n =>
      if n < 2 then HttpOutcome.statusError 500 "Internal Server Error"
      else HttpOutcome.success "error=1&text=quota+exceeded")).2.1 2
    "error=1&text=quota+exceeded" (by omega)
    (fun j hj => by interval_cases j <;> rfl) (by norm_num)
  rw [h]
  rfl

/-- The tamper check fires for a domain_admin supplying a non-empty
domain different from their assigned one. -/
theorem tamper_fires (u : User) (d : String) (hrole : u.role = UserRole.domain_admin)
    (hne : d ≠ "") (hdiff : some d ≠ u.domain) :
    check_domain_param_tampering u (some d) =
      .error ⟨403, "Access denied: domain_admin can only access " ++ pyStr u.domain⟩ := by
  have ht : pyTruthy (some d) = true := by simp [pyTruthy, hne]
  rw [check_domain_param_tampering, if_pos ⟨hrole, ht⟩, if_pos hdiff]

/-- C2 (amended): for a domain_admin who explicitly supplies a
*non-empty* domain parameter different from their assigned domain, each
mailbox endpoint fails with 403 Forbidden, leaving the database
untouched and issuing no remote call — i.e. before the mailbox lookup
and before any control-panel request.  For the create and
change-password endpoints this holds provided the request passes
password validation, which those endpoints run before the tamper check
(`main.py` lines 462, 545-548, 639, 709-712; `permissions.py`
lines 128-147). -/
theorem C2_tamper_forbidden_claim (u : User) (d : String) (db : Db)
    (uname npw dflt : String) (req : CreateEmailRequest)
    (remL : Except DirectAdminError (List String)) (rem rem' rem'' : Except DirectAdminError Unit)
    (now : Nat) (hrole : u.role = UserRole.domain_admin) (hne : d ≠ "")
    (hdiff : some d ≠ u.domain) :
    list_emails db u (some d) dflt remL now =
      (.error ⟨403, "Access denied: domain_admin can only access " ++ pyStr u.domain⟩,
        db, []) ∧
    delete_email uname db u (some d) dflt rem now =
      (.error ⟨403, "Access denied: domain_admin can only access " ++ pyStr u.domain⟩,
        db, []) ∧
    (validate_password npw = .ok () →
      change_password uname npw db u (some d) dflt rem' now =
        (.error ⟨403, "Access denied: domain_admin can only access " ++ pyStr u.domain⟩,
          db, [])) ∧
    (req.domain = some d → validate_password req.password = .ok () →
      create_email req db u dflt rem'' now =
        (.error ⟨403, "Access denied: domain_admin can only access " ++ pyStr u.domain⟩,
          db, [])) := by
  have ht := tamper_fires u d hrole hne hdiff
  refine ⟨?_, ?_, fun hv => ?_, fun hreq hv => ?_⟩
  · rw [list_emails, ht]
  · rw [delete_email, ht]
  · rw [change_password, hv, ht]
  · rw [create_email, hv, hreq, ht]

/-- C2 witness: a domain_admin assigned to `a.com` requesting
`domain=b.com` on the delete endpoint gets the 403, with no state change
and no remote call. -/
theorem C2_tamper_forbidden_claim_witness :
    delete_email "alice" ⟨[], 1⟩
      ⟨2, "da@a.com", "h", UserRole.domain_admin, some "a.com", true, false, 0, 0⟩
      (some "b.com") "dflt.com" (.ok ()) 5 =
      (.error ⟨403, "Access denied: domain_admin can only access a.com"⟩, ⟨[], 1⟩, []) :=
  (C2_tamper_forbidden_claim
    ⟨2, "da@a.com", "h", UserRole.domain_admin, some "a.com", true, false, 0, 0⟩
    "b.com" ⟨[], 1⟩ "alice" "x" "dflt.com" ⟨"u", "p", 1, none⟩
    (.ok []) (.ok ()) (.ok ()) (.ok ()) 5 rfl (by decide) (by decide)).2.1

/-- C2 counterexample for the claim as stated: (1) a domain_admin
assigned to `a.com` explicitly supplying the differing domain parameter
`""` (e.g. `?domain=`) is *not* rejected — the empty string is falsy in
Python, so the tamper check passes, the mailbox is looked up and the
remote delete call is issued and succeeds; (2) on the create endpoint a
differing *non-empty* parameter together with a weak password fails with
400 (password validation runs first), not 403 Forbidden. -/
theorem C2_tamper_forbidden_cex :
    delete_email "alice"
      ⟨[⟨1, "alice", "a.com", 500, some 1, 0, 0, none⟩], 2⟩
      ⟨2, "da@a.com", "h", UserRole.domain_admin, some "a.com", true, false, 0, 0⟩
      (some "") "dflt.com" (.ok ()) 5 =
      (.ok "Email alice@a.com deleted successfully",
        ⟨[⟨1, "alice", "a.com", 500, some 1, 0, 5, some 5⟩], 2⟩,
        [RemoteCall.delete "a.com" "alice"]) ∧
    create_email ⟨"bob", "weakpass1", 100, some "b.com"⟩
      ⟨[⟨1, "alice", "a.com", 500, some 1, 0, 0, none⟩], 2⟩
      ⟨2, "da@a.com", "h", UserRole.domain_admin, some "a.com", true, false, 0, 0⟩
      "dflt.com" (.ok ()) 5 =
      (.error ⟨400, "Password must contain at least one uppercase letter"⟩,
        ⟨[⟨1, "alice", "a.com", 500, some 1, 0, 0, none⟩], 2⟩, []) := by
  constructor
  · rfl
  · rfl

/-! ## List lemmas for `find?` and `updateFirst` -/

/-- A successful `find?` splits the list at the found element, and
`updateFirst` rewrites exactly that element. -/
theorem updateFirst_decomp {α : Type} (p : α → Bool) (f : α → α) (l : List α) (a : α)
    (h : l.find? p = some a) :
    ∃ l1 l2, l = l1 ++ a :: l2 ∧ (∀ x ∈ l1, p x = false) ∧ p a = true ∧
      updateFirst p f l = l1 ++ f a :: l2 := by
  induction l with
  | nil => simp at h
  | cons b rest ih =>
    by_cases hb : p b = true
    · rw [List.find?_cons_of_pos _ hb] at h
      obtain rfl : b = a := by injection h
      exact ⟨[], rest, rfl, by simp, hb, by simp [updateFirst, hb]⟩
    · have hb' : p b = false := by simpa using hb
      rw [List.find?_cons_of_neg _ (by simp [hb'])] at h
      obtain ⟨l1, l2, heq, hl1, hpa, hupd⟩ := ih h
      refine ⟨b :: l1, l2, by rw [heq]; rfl, ?_, hpa, ?_⟩
      · intro x hx
        rcases List.mem_cons.mp hx with rfl | hx
        · exact hb'
        · exact hl1 x hx
      · simp [updateFirst, hb', hupd]

/-- `updateFirst` is the identity when nothing matches. -/
theorem updateFirst_of_none {α : Type} (p : α → Bool) (f : α → α) (l : List α)
    (h : l.find? p = none) : updateFirst p f l = l := by
  induction l with
  | nil => rfl
  | cons b rest ih =>
    have hb : ¬ p b = true := by simpa using List.find?_eq_none.mp h b (by simp)
    have hrest : rest.find? p = none :=
      List.find?_eq_none.mpr fun x hx => List.find?_eq_none.mp h x (by simp [hx])
    simp [updateFirst, hb, ih hrest]

/-- `find?` ignores a prefix containing no match. -/
theorem find?_append_of_none {α : Type} (p : α → Bool) (l1 l2 : List α)
    (h : l1.find? p = none) : (l1 ++ l2).find? p = l2.find? p := by
  induction l1 with
  | nil => rfl
  | cons b rest ih =>
    have hb : ¬ p b = true := by simpa using List.find?_eq_none.mp h b (by simp)
    have hrest : rest.find? p = none :=
      List.find?_eq_none.mpr fun x hx => List.find?_eq_none.mp h x (by simp [hx])
    rw [List.cons_append, List.find?_cons_of_neg _ hb, ih hrest]

/-- A match in the prefix decides `find?` of an append. -/
theorem find?_append_some {α : Type} (p : α → Bool) (l1 l2 : List α) (a : α)
    (h : l1.find? p = some a) : (l1 ++ l2).find? p = some a := by
  induction l1 with
  | nil => simp at h
  | cons b rest ih =>
    by_cases hb : p b = true
    · rw [List.find?_cons_of_pos _ hb] at h
      rw [List.cons_append, List.find?_cons_of_pos _ hb]
      exact h
    · rw [List.find?_cons_of_neg _ hb] at h
      rw [List.cons_append, List.find?_cons_of_neg _ hb]
      exact ih h

/-- After rewriting the first `p`-match with `f`, `find? p` returns its
image, provided the image still matches. -/
theorem find?_updateFirst_self {α : Type} (p : α → Bool) (f : α → α) (l : List α) (a : α)
    (h : l.find? p = some a) (hf : p (f a) = true) :
    (updateFirst p f l).find? p = some (f a) := by
  obtain ⟨l1, l2, heq, hl1, hpa, hupd⟩ := updateFirst_decomp p f l a h
  have h1 : l1.find? p = none := List.find?_eq_none.mpr fun x hx => by simp [hl1 x hx]
  rw [hupd, find?_append_of_none _ _ _ h1, List.find?_cons_of_pos _ hf]

/-- `updateFirst p f` does not disturb `find? q` when no element can
match both `p` and `q` and `f` preserves `q`. -/
theorem find?_updateFirst_other {α : Type} (p q : α → Bool) (f : α → α) (l : List α)
    (hpq : ∀ x, p x = true → q x = false) (hfq : ∀ x, q (f x) = q x) :
    (updateFirst p f l).find? q = l.find? q := by
  induction l with
  | nil => rfl
  | cons b rest ih =>
    by_cases hb : p b = true
    · have hqb : ¬ q b = true := by simp [hpq b hb]
      have hqfb : ¬ q (f b) = true := by simp [hfq b, hpq b hb]
      simp only [updateFirst, if_pos hb]
      rw [List.find?_cons_of_neg _ hqfb, List.find?_cons_of_neg _ hqb]
    · simp only [updateFirst, if_neg hb]
      by_cases hq : q b = true
      · rw [List.find?_cons_of_pos _ hq, List.find?_cons_of_pos _ hq]
      · rw [List.find?_cons_of_neg _ hq, List.find?_cons_of_neg _ hq, ih]

/-- Membership after `updateFirst`: an element of the result was in the
original list or is the image of one. -/
theorem mem_updateFirst {α : Type} (p : α → Bool) (f : α → α) (l : List α) (x : α)
    (hx : x ∈ updateFirst p f l) : x ∈ l ∨ ∃ b, b ∈ l ∧ x = f b := by
  induction l with
  | nil => simp [updateFirst] at hx
  | cons b rest ih =>
    by_cases hb : p b = true
    · simp only [updateFirst, if_pos hb] at hx
      rcases List.mem_cons.mp hx with rfl | hx
      · exact Or.inr ⟨b, by simp, rfl⟩
      · exact Or.inl (by simp [hx])
    · simp only [updateFirst, if_neg hb] at hx
      rcases List.mem_cons.mp hx with rfl | hx
      · exact Or.inl (by simp)
      · rcases ih hx with h | ⟨c, hc, rfl⟩
        · exact Or.inl (by simp [h])
        · exact Or.inr ⟨c, by simp [hc], rfl⟩

/-! ## Reconciliation lemmas -/

/-- `resurrect` never changes username or domain. -/
theorem pairMatch_resurrect (v d' : String) (now : Nat) (a : EmailAccount) :
    pairMatch v d' (resurrect now a) = pairMatch v d' a := by
  unfold resurrect
  split <;> rfl

/-- `pairMatch` unfolded to propositional equality of the fields. -/
theorem pairMatch_iff (u d : String) (a : EmailAccount) :
    pairMatch u d a = true ↔ a.username = u ∧ a.domain = d := by
  simp [pairMatch]

/-- `resurrect` always leaves an active row. -/
theorem resurrect_deleted_at (now : Nat) (a : EmailAccount) :
    (resurrect now a).deleted_at = none := by
  rcases h : a.deleted_at with _ | t <;> simp [resurrect, h]

/-- The sync body is a no-op on a username whose first matching row is
already active. -/
theorem syncOne_of_firstActive (db : Db) (eff u : String) (now : Nat)
    (h : firstActive db.accounts u eff) : syncOne db eff u now = db := by
  obtain ⟨a, hfind, hdel⟩ := h
  have hres : resurrect now a = a := by simp [resurrect, hdel]
  obtain ⟨l1, l2, heq, hl1, hpa, hupd⟩ :=
    updateFirst_decomp (pairMatch u eff) (resurrect now) db.accounts a hfind
  have hacc : updateFirst (pairMatch u eff) (resurrect now) db.accounts = db.accounts := by
    rw [hupd, hres, ← heq]
  simp [syncOne, hfind, hacc]

/-- The sync body establishes an active first match for its username. -/
theorem syncOne_firstActive_self (db : Db) (eff u : String) (now : Nat) :
    firstActive (syncOne db eff u now).accounts u eff := by
  rcases hfind : db.accounts.find? (pairMatch u eff) with _ | a
  · refine ⟨newSyncAccount db.nextId u eff now, ?_, rfl⟩
    simp only [syncOne, hfind, Option.isSome_none, Bool.false_eq_true, if_false]
    rw [find?_append_of_none _ _ _ hfind]
    exact List.find?_cons_of_pos _ (by simp [pairMatch, newSyncAccount])
  · have hpfa : pairMatch u eff (resurrect now a) = true := by
      rw [pairMatch_resurrect]
      exact List.find?_some hfind
    refine ⟨resurrect now a, ?_, resurrect_deleted_at now a⟩
    simp only [syncOne, hfind, Option.isSome_some, if_true]
    exact find?_updateFirst_self _ _ _ _ hfind hpfa

/-- The sync body preserves active first matches of every pair. -/
theorem syncOne_firstActive_mono (db : Db) (eff u v d' : String) (now : Nat)
    (h : firstActive db.accounts v d') :
    firstActive (syncOne db eff u now).accounts v d' := by
  by_cases hvd : v = u ∧ d' = eff
  · obtain ⟨rfl, rfl⟩ := hvd
    rw [syncOne_of_firstActive db d' v now h]
    exact h
  · obtain ⟨a, hfind, hdel⟩ := h
    rcases hfind2 : db.accounts.find? (pairMatch u eff) with _ | b
    · refine ⟨a, ?_, hdel⟩
      simp only [syncOne, hfind2, Option.isSome_none, Bool.false_eq_true, if_false]
      exact find?_append_some _ _ _ _ hfind
    · refine ⟨a, ?_, hdel⟩
      simp only [syncOne, hfind2, Option.isSome_some, if_true]
      rw [find?_updateFirst_other (pairMatch u eff) (pairMatch v d') (resurrect now) _ ?_ ?_]
      · exact hfind
      · intro x hx
        rcases hq : pairMatch v d' x with _ | _
        · rfl
        · obtain ⟨h1, h2⟩ := (pairMatch_iff u eff x).mp hx
          obtain ⟨h3, h4⟩ := (pairMatch_iff v d' x).mp hq
          exact absurd ⟨h3.symm.trans h1, h4.symm.trans h2⟩ hvd
      · intro x
        exact pairMatch_resurrect v d' now x

/-- The whole sync loop preserves active first matches. -/
theorem syncAll_firstActive_mono (db : Db) (eff v d' : String) (us : List String) (now : Nat)
    (h : firstActive db.accounts v d') :
    firstActive (syncAll db eff us now).accounts v d' := by
  induction us generalizing db with
  | nil => exact h
  | cons w rest ih => exact ih (syncOne db eff w now) (syncOne_firstActive_mono db eff w v d' now h)

/-- After one sync pass, every remote username has an active first match. -/
theorem syncAll_establishes (db : Db) (eff : String) (us : List String) (now : Nat) :
    ∀ u ∈ us, firstActive (syncAll db eff us now).accounts u eff := by
  induction us generalizing db with
  | nil => simp
  | cons w rest ih =>
    intro u hu
    rcases List.mem_cons.mp hu with rfl | hu
    · exact syncAll_firstActive_mono (syncOne db eff u now) eff u eff rest now
        (syncOne_firstActive_self db eff u now)
    · exact ih (syncOne db eff w now) u hu

/-- A sync pass over usernames that all already have active first
matches changes nothing. -/
theorem syncAll_id (db : Db) (eff : String) (us : List String) (now : Nat)
    (h : ∀ u ∈ us, firstActive db.accounts u eff) : syncAll db eff us now = db := by
  induction us with
  | nil => rfl
  | cons w rest ih =>
    show syncAll (syncOne db eff w now) eff rest now = db
    rw [syncOne_of_firstActive db eff w now (h w (by simp))]
    exact ih fun u hu => h u (by simp [hu])

/-- The sync pass is idempotent on the database. -/
theorem syncAll_idem (db : Db) (eff : String) (us : List String) (now now' : Nat) :
    syncAll (syncAll db eff us now) eff us now' = syncAll db eff us now :=
  syncAll_id _ _ _ _ (syncAll_establishes db eff us now)

/-- C5: reconciliation is idempotent — running the `GET /emails` sync
pass twice with the same remote mailbox list returns the same result
tuple and the same database: the second pass performs no inserts and no
updates (`main.py` lines 445-524). -/
theorem C5_sync_idempotent_claim (db : Db) (u : User) (dom : Option String) (dflt : String)
    (remote : Except DirectAdminError (List String)) (t1 t2 : Nat) :
    list_emails ((list_emails db u dom dflt remote t1).2.1) u dom dflt remote t2 =
      list_emails db u dom dflt remote t1 := by
  rcases htam : check_domain_param_tampering u dom with e | v
  · simp [list_emails, htam]
  · rcases hacc : check_domain_access u (get_effective_domain u dom dflt) with e | v'
    · simp [list_emails, htam, hacc]
    · rcases remote with e | us
      · simp [list_emails, htam, hacc]
      · simp only [list_emails, htam, hacc]
        rw [syncAll_idem]

/-- C6: resurrection frame property — when the sync body processes a
remote username whose first matching local row is soft-deleted, it
clears `deleted_at` and sets `updated_at` on that very row, in place: no
row is inserted or removed, the id counter is untouched, and every other
field of the row (id, username, domain, quota_mb, created_by_user_id,
created_at) is preserved (`main.py` lines 477-502). -/
theorem C6_resurrection_claim (db : Db) (eff u : String) (now : Nat) (acc : EmailAccount)
    (hfind : db.accounts.find? (pairMatch u eff) = some acc)
    (hdel : acc.deleted_at ≠ none) :
    ∃ pre post, db.accounts = pre ++ acc :: post ∧
      syncOne db eff u now =
        { db with accounts := pre ++ { acc with deleted_at := none, updated_at := now } :: post } := by
  obtain ⟨l1, l2, heq, hl1, hpa, hupd⟩ :=
    updateFirst_decomp (pairMatch u eff) (resurrect now) db.accounts acc hfind
  refine ⟨l1, l2, heq, ?_⟩
  have hres : resurrect now acc = { acc with deleted_at := none, updated_at := now } := by
    simp [resurrect, hdel]
  simp [syncOne, hfind, hupd, hres]

/-- C6 witness: a concrete soft-deleted row (`deleted_at = some 3`,
creator 9, quota 500) is resurrected in place at time 7, keeping creator
and quota. -/
theorem C6_resurrection_claim_witness :
    ∃ pre post,
      [(⟨1, "alice", "a.com", 500, some 9, 0, 2, some 3⟩ : EmailAccount)] =
        pre ++ (⟨1, "alice", "a.com", 500, some 9, 0, 2, some 3⟩ : EmailAccount) :: post ∧
      syncOne ⟨[⟨1, "alice", "a.com", 500, some 9, 0, 2, some 3⟩], 2⟩ "a.com" "alice" 7 =
        { (⟨[⟨1, "alice", "a.com", 500, some 9, 0, 2, some 3⟩], 2⟩ : Db) with
            accounts := pre ++ (⟨1, "alice", "a.com", 500, some 9, 0, 7, none⟩ : EmailAccount) :: post } :=
  C6_resurrection_claim ⟨[⟨1, "alice", "a.com", 500, some 9, 0, 2, some 3⟩], 2⟩
    "a.com" "alice" 7 ⟨1, "alice", "a.com", 500, some 9, 0, 2, some 3⟩ rfl (by decide)

/-! ## Mutating endpoints: remote-first ordering -/

/-- A failed remote create leaves the database unchanged. -/
theorem create_email_error_db (req : CreateEmailRequest) (db : Db) (u : User)
    (dflt : String) (e : DirectAdminError) (now : Nat) :
    (create_email req db u dflt (.error e) now).2.1 = db := by
  rcases hv : validate_password req.password with e1 | v
  · simp [create_email, hv]
  · rcases ht : check_domain_param_tampering u req.domain with e2 | v'
    · simp [create_email, hv, ht]
    · rcases ha : check_domain_access u (get_effective_domain u req.domain dflt) with e3 | v''
      · simp [create_email, hv, ht, ha]
      · rcases hf : db.accounts.find? (activeMatch req.username
            (get_effective_domain u req.domain dflt)) with _ | a
        · simp [create_email, hv, ht, ha, hf]
        · simp [create_email, hv, ht, ha, hf]

/-- A failed remote delete leaves the database unchanged. -/
theorem delete_email_error_db (uname : String) (db : Db) (u : User) (dom : Option String)
    (dflt : String) (e : DirectAdminError) (now : Nat) :
    (delete_email uname db u dom dflt (.error e) now).2.1 = db := by
  rcases ht : check_domain_param_tampering u dom with e2 | v
  · simp [delete_email, ht]
  · rcases ha : check_domain_access u (get_effective_domain u dom dflt) with e3 | v'
    · simp [delete_email, ht, ha]
    · rcases hf : db.accounts.find? (activeMatch uname
          (get_effective_domain u dom dflt)) with _ | a
      · simp [delete_email, ht, ha, hf]
      · simp [delete_email, ht, ha, hf]

/-- A failed remote password change leaves the database unchanged. -/
theorem change_password_error_db (uname npw : String) (db : Db) (u : User)
    (dom : Option String) (dflt : String) (e : DirectAdminError) (now : Nat) :
    (change_password uname npw db u dom dflt (.error e) now).2.1 = db := by
  rcases hv : validate_password npw with e1 | v
  · simp [change_password, hv]
  · rcases ht : check_domain_param_tampering u dom with e2 | v'
    · simp [change_password, hv, ht]
    · rcases ha : check_domain_access u (get_effective_domain u dom dflt) with e3 | v''
      · simp [change_password, hv, ht, ha]
      · rcases hf : db.accounts.find? (activeMatch uname
            (get_effective_domain u dom dflt)) with _ | a
        · simp [change_password, hv, ht, ha, hf]
        · simp [change_password, hv, ht, ha, hf]

/-- What a successful delete implies: the guards passed, an active row
was found, and the new state is the soft delete of the first such row. -/
theorem delete_email_ok_spec (uname : String) (db : Db) (u : User) (dom : Option String)
    (dflt : String) (now : Nat) (m : String)
    (hm : (delete_email uname db u dom dflt (.ok ()) now).1 = .ok m) :
    check_domain_param_tampering u dom = .ok () ∧
    check_domain_access u (get_effective_domain u dom dflt) = .ok () ∧
    ∃ a, db.accounts.find? (activeMatch uname (get_effective_domain u dom dflt)) = some a ∧
      (delete_email uname db u dom dflt (.ok ()) now).2.1 =
        { db with accounts :=
            softDeleteFirst uname (get_effective_domain u dom dflt) now db.accounts } := by
  rcases ht : check_domain_param_tampering u dom with e2 | ⟨⟩
  · simp [delete_email, ht] at hm
  · rcases ha : check_domain_access u (get_effective_domain u dom dflt) with e3 | ⟨⟩
    · simp [delete_email, ht, ha] at hm
    · rcases hf : db.accounts.find? (activeMatch uname
          (get_effective_domain u dom dflt)) with _ | a
      · simp [delete_email, ht, ha, hf] at hm
      · exact ⟨rfl, rfl, a, rfl, by simp [delete_email, ht, ha, hf]⟩

/-- Soft-deleting a row makes it inactive. -/
theorem activeMatch_soft (uname eff : String) (now : Nat) (a : EmailAccount) :
    activeMatch uname eff { a with deleted_at := some now, updated_at := now } = false := by
  simp [activeMatch]

/-- C7: mutating mailbox operations are remote-first — when the remote
control-panel call fails, the local database is unchanged for create,
delete and change-password; a successful delete soft-deletes the row in
place (sets `deleted_at`, never removes the row), and — given the
storage-level uniqueness of active (username, domain) rows — a second
delete of the same mailbox fails with 404 NotFound
(`main.py` lines 527-618 and 621-687). -/
theorem C7_remote_first_claim (db : Db) (u : User) (req : CreateEmailRequest)
    (uname npw : String) (dom : Option String) (dflt : String) (e : DirectAdminError)
    (now : Nat) (m : String) (rem2 : Except DirectAdminError Unit) (now2 : Nat)
    (hUniq : (db.accounts.filter
      (activeMatch uname (get_effective_domain u dom dflt))).length ≤ 1)
    (hOk : (delete_email uname db u dom dflt (.ok ()) now).1 = .ok m) :
    (create_email req db u dflt (.error e) now).2.1 = db ∧
    (delete_email uname db u dom dflt (.error e) now).2.1 = db ∧
    (change_password uname npw db u dom dflt (.error e) now).2.1 = db ∧
    (∃ pre a post, db.accounts = pre ++ a :: post ∧
      (delete_email uname db u dom dflt (.ok ()) now).2.1 =
        { db with accounts :=
            pre ++ { a with deleted_at := some now, updated_at := now } :: post }) ∧
    (delete_email uname ((delete_email uname db u dom dflt (.ok ()) now).2.1)
        u dom dflt rem2 now2).1 =
      .error ⟨404, "Email " ++ uname ++ "@" ++ get_effective_domain u dom dflt ++
        " not found"⟩ := by
  obtain ⟨ht, ha, a, hf, hdb⟩ := delete_email_ok_spec uname db u dom dflt now m hOk
  obtain ⟨l1, l2, heq, hl1, hpa, hupd⟩ :=
    updateFirst_decomp (activeMatch uname (get_effective_domain u dom dflt))
      (fun x => { x with deleted_at := some now, updated_at := now }) db.accounts a hf
  have hupd' : softDeleteFirst uname (get_effective_domain u dom dflt) now db.accounts =
      l1 ++ { a with deleted_at := some now, updated_at := now } :: l2 := hupd
  have hl2 : ∀ x ∈ l2, activeMatch uname (get_effective_domain u dom dflt) x = false := by
    intro x hx
    by_contra hxne
    have hxt : activeMatch uname (get_effective_domain u dom dflt) x = true := by
      simpa using hxne
    have hfilter : 2 ≤ (db.accounts.filter
        (activeMatch uname (get_effective_domain u dom dflt))).length := by
      rw [heq, List.filter_append, List.filter_cons_of_pos hpa]
      have hxmem : x ∈ l2.filter (activeMatch uname (get_effective_domain u dom dflt)) :=
        List.mem_filter.mpr ⟨hx, hxt⟩
      have h1 : 0 < (l2.filter (activeMatch uname (get_effective_domain u dom dflt))).length :=
        List.length_pos_of_mem hxmem
      simp only [List.length_append, List.length_cons]
      omega
    omega
  have hnone : (softDeleteFirst uname (get_effective_domain u dom dflt) now
      db.accounts).find? (activeMatch uname (get_effective_domain u dom dflt)) = none := by
    rw [hupd']
    apply List.find?_eq_none.mpr
    intro x hx
    rcases List.mem_append.mp hx with hx1 | hx2
    · simp [hl1 x hx1]
    · rcases List.mem_cons.mp hx2 with rfl | hx3
      · simp [activeMatch]
      · simp [hl2 x hx3]
  refine ⟨create_email_error_db req db u dflt e now,
    delete_email_error_db uname db u dom dflt e now,
    change_password_error_db uname npw db u dom dflt e now,
    ⟨l1, a, l2, heq, by rw [hdb, hupd']⟩, ?_⟩
  rw [hdb]
  simp [delete_email, ht, ha, hnone]

/-- C7 witness: a concrete database with one active row `alice@x.com`:
a failed remote create leaves it unchanged, and after a successful
delete at time 5 a second delete returns 404. -/
theorem C7_remote_first_claim_witness :
    (create_email ⟨"bob", "Passw0rd1", 100, none⟩
      ⟨[⟨1, "alice", "x.com", 500, some 1, 0, 0, none⟩], 2⟩
      ⟨1, "root@x.com", "h", UserRole.admin, none, true, false, 0, 0⟩
      "x.com" (.error ⟨.scalar "boom", none⟩) 5).2.1 =
      ⟨[⟨1, "alice", "x.com", 500, some 1, 0, 0, none⟩], 2⟩ ∧
    (delete_email "alice"
      ((delete_email "alice" ⟨[⟨1, "alice", "x.com", 500, some 1, 0, 0, none⟩], 2⟩
        ⟨1, "root@x.com", "h", UserRole.admin, none, true, false, 0, 0⟩
        none "x.com" (.ok ()) 5).2.1)
      ⟨1, "root@x.com", "h", UserRole.admin, none, true, false, 0, 0⟩
      none "x.com" (.ok ()) 6).1 =
      .error ⟨404, "Email " ++ "alice" ++ "@" ++ get_effective_domain
        ⟨1, "root@x.com", "h", UserRole.admin, none, true, false, 0, 0⟩ none "x.com" ++
        " not found"⟩ := by
  have h := C7_remote_first_claim
    ⟨[⟨1, "alice", "x.com", 500, some 1, 0, 0, none⟩], 2⟩
    ⟨1, "root@x.com", "h", UserRole.admin, none, true, false, 0, 0⟩
    ⟨"bob", "Passw0rd1", 100, none⟩ "alice" "Xyzzy123" none "x.com"
    ⟨.scalar "boom", none⟩ 5 "Email alice@x.com deleted successfully" (.ok ()) 6
    (by decide) rfl
  exact ⟨h.1, h.2.2.2.2⟩

/-! ## Uniqueness invariant -/

/-- `updateFirst` with a pair-preserving rewrite keeps the pairs
distinct. -/
theorem pairsDistinct_updateFirst (p : EmailAccount → Bool) (f : EmailAccount → EmailAccount)
    (hf : ∀ a, (f a).username = a.username ∧ (f a).domain = a.domain)
    (l : List EmailAccount) (h : pairsDistinct l) : pairsDistinct (updateFirst p f l) := by
  simp only [pairsDistinct] at h ⊢
  induction l with
  | nil => exact h
  | cons b rest ih =>
    obtain ⟨hb, hrest⟩ := List.pairwise_cons.mp h
    by_cases hp : p b = true
    · simp only [updateFirst, if_pos hp]
      refine List.pairwise_cons.mpr ⟨?_, hrest⟩
      intro x hx
      have hbx := hb x hx
      rw [(hf b).1, (hf b).2]
      exact hbx
    · simp only [updateFirst, if_neg hp]
      refine List.pairwise_cons.mpr ⟨?_, ih hrest⟩
      intro x hx
      rcases mem_updateFirst p f rest x hx with hmem | ⟨c, hc, rfl⟩
      · exact hb x hmem
      · have hbc := hb c hc
        rw [(hf c).1, (hf c).2]
        exact hbc

/-- Appending a row whose pair occurs nowhere keeps the pairs distinct. -/
theorem pairsDistinct_append_new (l : List EmailAccount) (n : EmailAccount)
    (h : pairsDistinct l) (hn : ∀ x ∈ l, pairMatch n.username n.domain x = false) :
    pairsDistinct (l ++ [n]) := by
  simp only [pairsDistinct] at h ⊢
  rw [List.pairwise_append]
  refine ⟨h, List.pairwise_singleton _ _, ?_⟩
  intro a ha b hb
  rcases List.mem_singleton.mp hb with rfl
  rintro ⟨h1, h2⟩
  have hfalse := hn a ha
  simp [pairMatch, h1, h2] at hfalse

/-- The sync body keeps the pairs distinct. -/
theorem pairsDistinct_syncOne (db : Db) (eff u : String) (now : Nat)
    (h : pairsDistinct db.accounts) : pairsDistinct (syncOne db eff u now).accounts := by
  rcases hfind : db.accounts.find? (pairMatch u eff) with _ | a
  · simp only [syncOne, hfind, Option.isSome_none, Bool.false_eq_true, if_false]
    apply pairsDistinct_append_new _ _ h
    intro x hx
    have hne := List.find?_eq_none.mp hfind x hx
    have h2 : pairMatch u eff x = false := by simpa using hne
    exact h2
  · simp only [syncOne, hfind, Option.isSome_some, if_true]
    refine pairsDistinct_updateFirst _ _ (fun x => ⟨?_, ?_⟩) _ h <;>
      · unfold resurrect
        split <;> rfl

/-- The whole sync loop keeps the pairs distinct. -/
theorem pairsDistinct_syncAll (db : Db) (eff : String) (us : List String) (now : Nat)
    (h : pairsDistinct db.accounts) : pairsDistinct (syncAll db eff us now).accounts := by
  induction us generalizing db with
  | nil => exact h
  | cons w rest ih => exact ih (syncOne db eff w now) (pairsDistinct_syncOne db eff w now h)

/-- The listing endpoint keeps the pairs distinct. -/
theorem pairsDistinct_list_emails (db : Db) (u : User) (dom : Option String) (dflt : String)
    (remote : Except DirectAdminError (List String)) (now : Nat)
    (h : pairsDistinct db.accounts) :
    pairsDistinct (list_emails db u dom dflt remote now).2.1.accounts := by
  rcases htam : check_domain_param_tampering u dom with e | ⟨⟩
  · simpa [list_emails, htam] using h
  · rcases hacc : check_domain_access u (get_effective_domain u dom dflt) with e | ⟨⟩
    · simpa [list_emails, htam, hacc] using h
    · rcases remote with e | us
      · simpa [list_emails, htam, hacc] using h
      · simp only [list_emails, htam, hacc]
        exact pairsDistinct_syncAll db (get_effective_domain u dom dflt) us now h

/-- The create endpoint keeps the pairs distinct. -/
theorem pairsDistinct_create_email (req : CreateEmailRequest) (db : Db) (u : User)
    (dflt : String) (remote : Except DirectAdminError Unit) (now : Nat)
    (h : pairsDistinct db.accounts) :
    pairsDistinct (create_email req db u dflt remote now).2.1.accounts := by
  rcases hv : validate_password req.password with e1 | ⟨⟩
  · simpa [create_email, hv] using h
  · rcases ht : check_domain_param_tampering u req.domain with e2 | ⟨⟩
    · simpa [create_email, hv, ht] using h
    · rcases ha : check_domain_access u (get_effective_domain u req.domain dflt) with e3 | ⟨⟩
      · simpa [create_email, hv, ht, ha] using h
      · rcases hfa : db.accounts.find? (activeMatch req.username
            (get_effective_domain u req.domain dflt)) with _ | b
        · rcases remote with e | ⟨⟩
          · simpa [create_email, hv, ht, ha, hfa] using h
          · rcases hfp : db.accounts.find? (pairMatch req.username
                (get_effective_domain u req.domain dflt)) with _ | c
            · simp only [create_email, hv, ht, ha, hfa, hfp, Option.isSome_none,
                Bool.false_eq_true, if_false]
              apply pairsDistinct_append_new _ _ h
              intro x hx
              have hne := List.find?_eq_none.mp hfp x hx
              have h2 : pairMatch req.username (get_effective_domain u req.domain dflt) x
                  = false := by simpa using hne
              exact h2
            · simpa [create_email, hv, ht, ha, hfa, hfp] using h
        · simpa [create_email, hv, ht, ha, hfa] using h

/-- The delete endpoint keeps the pairs distinct. -/
theorem pairsDistinct_delete_email (uname : String) (db : Db) (u : User)
    (dom : Option String) (dflt : String) (remote : Except DirectAdminError Unit) (now : Nat)
    (h : pairsDistinct db.accounts) :
    pairsDistinct (delete_email uname db u dom dflt remote now).2.1.accounts := by
  rcases ht : check_domain_param_tampering u dom with e2 | ⟨⟩
  · simpa [delete_email, ht] using h
  · rcases ha : check_domain_access u (get_effective_domain u dom dflt) with e3 | ⟨⟩
    · simpa [delete_email, ht, ha] using h
    · rcases hf : db.accounts.find? (activeMatch uname
          (get_effective_domain u dom dflt)) with _ | a
      · simpa [delete_email, ht, ha, hf] using h
      · rcases remote with e | ⟨⟩
        · simpa [delete_email, ht, ha, hf] using h
        · simp only [delete_email, ht, ha, hf]
          exact pairsDistinct_updateFirst
            (activeMatch uname (get_effective_domain u dom dflt))
            (fun a => { a with deleted_at := some now, updated_at := now })
            (fun x => ⟨rfl, rfl⟩) db.accounts h

/-- The password-change endpoint keeps the pairs distinct. -/
theorem pairsDistinct_change_password (uname npw : String) (db : Db) (u : User)
    (dom : Option String) (dflt : String) (remote : Except DirectAdminError Unit) (now : Nat)
    (h : pairsDistinct db.accounts) :
    pairsDistinct (change_password uname npw db u dom dflt remote now).2.1.accounts := by
  rcases hv : validate_password npw with e1 | ⟨⟩
  · simpa [change_password, hv] using h
  · rcases ht : check_domain_param_tampering u dom with e2 | ⟨⟩
    · simpa [change_password, hv, ht] using h
    · rcases ha : check_domain_access u (get_effective_domain u dom dflt) with e3 | ⟨⟩
      · simpa [change_password, hv, ht, ha] using h
      · rcases hf : db.accounts.find? (activeMatch uname
            (get_effective_domain u dom dflt)) with _ | a
        · simpa [change_password, hv, ht, ha, hf] using h
        · rcases remote with e | ⟨⟩
          · simpa [change_password, hv, ht, ha, hf] using h
          · simp only [change_password, hv, ht, ha, hf]
            exact pairsDistinct_updateFirst
              (activeMatch uname (get_effective_domain u dom dflt))
              (fun a => { a with updated_at := now })
              (fun x => ⟨rfl, rfl⟩) db.accounts h

/-- C8 (amended): at every reachable database state the (username,
domain) pair is unique across *all* rows — the storage constraint of
`models.py` line 48 is unconditional — hence in particular among
non-deleted rows, and a soft-deleted row never coexists with an active
row for the same pair.  Re-creation through `POST /emails` while a
soft-deleted row holds the pair does *not* clear the delete timestamp:
the remote create is issued and the local commit then fails with the 500
storage-constraint error, leaving the database unchanged (clearing the
timestamp in place is done only by the reconciliation pass, cf. C6). -/
theorem C8_uniqueness_claim (db : Db) (hreach : Reachable db) :
    pairsDistinct db.accounts ∧
    pairsDistinct (db.accounts.filter fun a => a.deleted_at == none) ∧
    (∀ (req : CreateEmailRequest) (u : User) (dflt : String) (now : Nat) (acc : EmailAccount),
      validate_password req.password = .ok () →
      check_domain_param_tampering u req.domain = .ok () →
      check_domain_access u (get_effective_domain u req.domain dflt) = .ok () →
      db.accounts.find? (activeMatch req.username
        (get_effective_domain u req.domain dflt)) = none →
      db.accounts.find? (pairMatch req.username
        (get_effective_domain u req.domain dflt)) = some acc →
      create_email req db u dflt (.ok ()) now =
        (.error ⟨500, integrityErrorDetail⟩, db,
          [.create (get_effective_domain u req.domain dflt) req.username req.quota_mb])) := by
  have hmain : pairsDistinct db.accounts := by
    induction hreach with
    | init => simp [pairsDistinct]
    | sync u dom dflt remote now hr ih => exact pairsDistinct_list_emails _ u dom dflt remote now ih
    | create req u dflt remote now hr ih => exact pairsDistinct_create_email req _ u dflt remote now ih
    | del username u dom dflt remote now hr ih =>
      exact pairsDistinct_delete_email username _ u dom dflt remote now ih
    | passwd username npw u dom dflt remote now hr ih =>
      exact pairsDistinct_change_password username npw _ u dom dflt remote now ih
  refine ⟨hmain, ?_, ?_⟩
  · simp only [pairsDistinct] at hmain ⊢
    exact List.Pairwise.sublist (List.filter_sublist _) hmain
  · intro req u dflt now acc hv ht ha hfa hfp
    simp [create_email, hv, ht, ha, hfa, hfp]

/-- C8 witness: the uniqueness invariant holds at the initial state. -/
theorem C8_uniqueness_claim_witness :
    pairsDistinct ((⟨[], 1⟩ : Db)).accounts :=
  (C8_uniqueness_claim ⟨[], 1⟩ Reachable.init).1

/-- C8 counterexample for the claim as stated: re-creating `alice@x.com`
while a soft-deleted row (`deleted_at = some 2`) holds the pair does
*not* clear the delete timestamp of the existing row — the create
endpoint issues the remote create and then fails with the 500
storage-constraint error, leaving the soft-deleted row (timestamp still
set) and inserting nothing. -/
theorem C8_uniqueness_cex :
    create_email ⟨"alice", "Passw0rd1", 500, none⟩
      ⟨[⟨1, "alice", "x.com", 500, some 1, 0, 2, some 2⟩], 2⟩
      ⟨1, "root@x.com", "h", UserRole.admin, none, true, false, 0, 0⟩
      "x.com" (.ok ()) 5 =
      (.error ⟨500, integrityErrorDetail⟩,
        ⟨[⟨1, "alice", "x.com", 500, some 1, 0, 2, some 2⟩], 2⟩,
        [RemoteCall.create "x.com" "alice" 500]) := by
  rfl

/-! ## Password-reset flow -/

/-- C10: in the password-reset submission path, whenever a matching
active email account exists for the user's domain, the DirectAdmin-side
update is invoked with three positional arguments (username,
new_password, quota_mb) although `DirectAdminClient.change_password`
accepts only two — so that call raises `TypeError` before any remote
request is issued; the exception is caught (and only logged) and the
local reset still completes: the user's hashed password is updated, the
token is marked used, and the user is redirected
(`main.py` lines 311-404, `client.py` lines 200-224). -/
theorem C10_reset_arity_claim (token npw : String) (st : AppState)
    (remote : Except DirectAdminError Unit) (now : Nat)
    (rt : PasswordResetToken) (user : User) (uname ddom : String) (rest : List String)
    (acc : EmailAccount)
    (hft : st.reset_tokens.find? (fun t => t.token == token) = some rt)
    (hused : rt.used = false)
    (hexp : ¬ rt.expires_at < now)
    (hv : validate_password npw = .ok ())
    (hfu : st.users.find? (fun u' => u'.id == rt.user_id) = some user)
    (hdom : pyTruthy user.domain = true)
    (hparts : (splitOnChar '@' user.email.data).map (fun l => (⟨l⟩ : String)) =
      uname :: ddom :: rest)
    (hacc : st.accounts.find? (activeMatch uname ddom) = some acc) :
    call_change_password [PyVal.str uname, PyVal.str npw, PyVal.int acc.quota_mb] remote =
      (.error .typeError, false) ∧
    process_reset_password token npw npw st remote now =
      (.redirect,
        { st with
          users := updateFirst (fun u' => u'.id == rt.user_id)
            (fun u' => { u' with hashed_password := hash_password npw,
                                 must_change_password := false, updated_at := now })
            st.users,
          reset_tokens := updateFirst (fun t => t.token == token)
            (fun t => { t with used := true }) st.reset_tokens },
        false) := by
  refine ⟨rfl, ?_⟩
  have hcond : (rt.used || decide (rt.expires_at < now)) = false := by
    simp [hused, hexp]
  simp [process_reset_password, hft, hcond, hv, hfu, hdom, hparts, hacc,
    call_change_password]

/-- C10 witness: a concrete state with user `bob@x.com`, an active
account `bob@x.com` (quota 500) and a fresh token — the reset completes
(redirect, password hash updated, token used) while the DirectAdmin call
raises `TypeError` and issues no request. -/
theorem C10_reset_arity_claim_witness :
    call_change_password [PyVal.str "bob", PyVal.str "Newpass1", PyVal.int 500] (.ok ()) =
      (.error .typeError, false) ∧
    process_reset_password "tok123" "Newpass1" "Newpass1"
      ⟨[⟨10, "bob@x.com", "old", UserRole.user, some "x.com", true, true, 0, 0⟩],
        [⟨1, "bob", "x.com", 500, some 1, 0, 0, none⟩],
        [⟨"tok123", 10, 100, false⟩]⟩ (.ok ()) 50 =
      (.redirect,
        { (⟨[⟨10, "bob@x.com", "old", UserRole.user, some "x.com", true, true, 0, 0⟩],
            [⟨1, "bob", "x.com", 500, some 1, 0, 0, none⟩],
            [⟨"tok123", 10, 100, false⟩]⟩ : AppState) with
          users := updateFirst (fun u' => u'.id == (10 : Nat))
            (fun u' => { u' with hashed_password := hash_password "Newpass1",
                                 must_change_password := false, updated_at := 50 })
            [⟨10, "bob@x.com", "old", UserRole.user, some "x.com", true, true, 0, 0⟩],
          reset_tokens := updateFirst (fun t => t.token == "tok123")
            (fun t => { t with used := true }) [⟨"tok123", 10, 100, false⟩] },
        false) :=
  C10_reset_arity_claim "tok123" "Newpass1"
    ⟨[⟨10, "bob@x.com", "old", UserRole.user, some "x.com", true, true, 0, 0⟩],
      [⟨1, "bob", "x.com", 500, some 1, 0, 0, none⟩],
      [⟨"tok123", 10, 100, false⟩]⟩ (.ok ()) 50
    ⟨"tok123", 10, 100, false⟩
    ⟨10, "bob@x.com", "old", UserRole.user, some "x.com", true, true, 0, 0⟩
    "bob" "x.com" [] ⟨1, "bob", "x.com", 500, some 1, 0, 0, none⟩
    rfl rfl (by decide) rfl rfl rfl rfl rfl

end EmailApi
